import Mathlib

/-!
Verification of the "Interactive Endpoint" TCP endpoint program.

The program (src/netio.c, src/endpoint.c) is shallowly embedded here:
OS-level nondeterminism (return values of sendmsg/recvmsg/connect/
getsockopt/fork/malloc) is passed in explicitly as oracle arguments, and
the mutable linked lists (send queues, connection registry) are modelled
as Lean lists in the order the C code links them (head = first entry).
-/

namespace Endpoint

/-! ### Wire format

`MessageHeaderStc` is `{ int msglen; int msgix }`: two 4-byte ints laid
out consecutively (little-endian host order).  A frame on the wire is
this 8-byte header followed by `msglen` payload bytes. -/

/-- Little-endian 4-byte encoding of a natural number (one C `int`). -/
def encode4 (n : Nat) : List Nat :=
  [n % 256, n / 256 % 256, n / 65536 % 256, n / 16777216 % 256]

/-- Little-endian decode of the first four bytes of a list (unsigned view). -/
def decode4 (bs : List Nat) : Nat :=
  match bs with
  | b0 :: b1 :: b2 :: b3 :: _ => b0 + 256 * b1 + 65536 * b2 + 16777216 * b3
  | _ => 0

/-- The value of a C `int` read from four little-endian bytes
(two's complement: values at or above 2^31 are negative). -/
def sdecode4 (bs : List Nat) : Int :=
  let u := decode4 bs
  if u < 2147483648 then (u : Int) else (u : Int) - 4294967296

/-! ### netio.c: tcp_send_message -/

/-- `tSendMsgTyp`, the return codes of `tcp_send_message` (netio.h). -/
inductive tSendMsgTyp where
  | SEND_COMPLETE
  | SEND_BLOCKED
  | SEND_FAILURE
deriving DecidableEq, Repr

/-- Outcome of one `sendmsg` system call: the returned byte count `n`
and whether `errno == EWOULDBLOCK` held when `n < 0`. -/
structure SendmsgOutcome where
  n : Int
  ewouldblock : Bool
deriving DecidableEq, Repr

/-- `tcp_send_message` (netio.c:202-239).  It builds the header from
`msglen`/`msgix`, issues one vectored `sendmsg`, and classifies the
result: any positive count is `SEND_COMPLETE` (no retry of a short
write), a negative count with `EWOULDBLOCK` is `SEND_BLOCKED`, anything
else is `SEND_FAILURE`.  The classification never consults `buffer`,
`msglen` or `msgix`. -/
def tcp_send_message (buffer : List Nat) (msglen : Nat) (msgix : Int)
    (os : SendmsgOutcome) : tSendMsgTyp :=
  if 0 < os.n then .SEND_COMPLETE
  else if os.n < 0 ∧ os.ewouldblock = true then .SEND_BLOCKED
  else .SEND_FAILURE

/-- The bytes `tcp_send_message` hands to `sendmsg` for a message:
header `{msglen, msgix}` followed by the payload (the iovec order in
netio.c:212-217). -/
def sendWire (buffer : List Nat) (msgix : Nat) : List Nat :=
  encode4 buffer.length ++ encode4 msgix ++ buffer

/-- Claim C2: `tcp_send_message` returns `SEND_COMPLETE` exactly when the
vectored send reports a positive byte count (a short write is not
retried: the classification ignores how `n` compares to the frame
length), `SEND_BLOCKED` exactly when the OS reports would-block with a
negative count, and `SEND_FAILURE` in every other case. -/
theorem C2_send_status_mapping (buffer : List Nat) (msglen : Nat) (msgix : Int)
    (os : SendmsgOutcome) :
    (tcp_send_message buffer msglen msgix os = .SEND_COMPLETE ↔ 0 < os.n) ∧
    (tcp_send_message buffer msglen msgix os = .SEND_BLOCKED ↔
      os.n < 0 ∧ os.ewouldblock = true) ∧
    (tcp_send_message buffer msglen msgix os = .SEND_FAILURE ↔
      ¬ 0 < os.n ∧ ¬ (os.n < 0 ∧ os.ewouldblock = true)) := by
  unfold tcp_send_message
  by_cases h1 : 0 < os.n
  · simp [h1]
    omega
  · by_cases h2 : os.n < 0 ∧ os.ewouldblock = true
    · simp [h1, h2]
    · simp [h1, h2]

/-- Witness for C2 at a concrete outcome: a 1-byte `sendmsg` count on a
10-byte frame is still reported `SEND_COMPLETE`. -/
theorem C2_witness :
    tcp_send_message [104, 105] 2 1 ⟨1, false⟩ = .SEND_COMPLETE :=
  (C2_send_status_mapping [104, 105] 2 1 ⟨1, false⟩).1.mpr (by decide)

/-! ### netio.c: tcp_recv_message

The receive loop (netio.c:253-322) is driven by repeated `recvmsg`
calls.  We model the socket as the list of bytes that will ever arrive
(`stream`) plus a list of kernel events, one per `recvmsg` call: on
`avail k` the kernel delivers `min k L` of the waiting bytes where `L`
is the current `iov_len` (a read never crosses the header/payload
boundary because the code always caps `iov_len` at the remainder of the
current phase); a delivery of zero bytes is an orderly close, matching
`recvmsg` returning 0.

All parse state — `recv_count`, the partially filled header, the
payload cursor — is local to one call of `tcp_recv_message`, exactly as
in the C code; a `RECV_BLOCKED` return discards it.

Faithfulness note: the completion test at netio.c:297 is
`recv_count >= sizeof(header) + header.msglen` and we model it as the
integer comparison `8 + msglen ≤ recv_count`; the two agree whenever
`header.msglen` is nonnegative, which covers every state reachable in
the theorems below (a negative `msglen` would be promoted to a huge
`size_t` by the C expression). -/

/-- `tRecvMsgTyp`, the return codes of `tcp_recv_message` (netio.h). -/
inductive tRecvMsgTyp where
  | RECV_COMPLETE
  | RECV_BLOCKED
  | RECV_TERMINATED
  | RECV_FAILURE
deriving DecidableEq, Repr

/-- One kernel response to a `recvmsg` call. -/
inductive IoEv where
  | avail (k : Nat)
  | wouldblock
  | closed
  | errOther
deriving DecidableEq, Repr

/-- Log events emitted by the receive path: the "invalid message header"
error of netio.c:292, carrying the declared length and index. -/
inductive NetLog where
  | invalidHeader (len ix : Int)
deriving DecidableEq, Repr

/-- Result of one `tcp_recv_message` call: the status, the payload bytes
written into the caller's buffer, the bytes still unread on the socket,
the unconsumed kernel events, and the log messages emitted. -/
structure RecvOut where
  status : tRecvMsgTyp
  buffer : List Nat
  stream : List Nat
  evs : List IoEv
  logs : List NetLog
deriving DecidableEq, Repr

/-- The `while (true)` read loop of `tcp_recv_message` (netio.c:273-319).
State: `cnt` is `recv_count`, `hdr` the header bytes received so far,
`payload` the payload bytes written to the caller's buffer, `mlen`/`mix`
the current `header.msglen`/`header.msgix` fields (meaningful once
`8 ≤ cnt`; the header is `memset` to zero at entry).  `capacity` is the
`msglen` parameter of the C function (the caller's buffer size). -/
def recvLoop (capacity : Nat) (stream : List Nat) (evs : List IoEv) (cnt : Nat)
    (hdr payload : List Nat) (mlen mix : Int) (logs : List NetLog) : RecvOut :=
  match evs with
  | [] => ⟨.RECV_BLOCKED, payload, stream, [], logs⟩
  | ev :: rest =>
    match ev with
    | .closed => ⟨.RECV_TERMINATED, payload, stream, rest, logs⟩
    | .wouldblock => ⟨.RECV_BLOCKED, payload, stream, rest, logs⟩
    | .errOther => ⟨.RECV_FAILURE, payload, stream, rest, logs⟩
    | .avail k =>
      let L : Nat := if cnt < 8 then 8 - cnt else Int.toNat mlen - payload.length
      let n : Nat := min (min k L) stream.length
      if n = 0 then ⟨.RECV_TERMINATED, payload, stream, rest, logs⟩
      else
        let taken := stream.take n
        let str1 := stream.drop n
        let cnt1 := cnt + n
        if cnt < 8 then
          let hdr1 := hdr ++ taken
          if 8 ≤ cnt1 then
            let m0 := sdecode4 hdr1
            let x0 := sdecode4 (hdr1.drop 4)
            let m1 : Int := if (capacity : Int) < m0 then (capacity : Int) else m0
            let lg1 := if (capacity : Int) < m0 then
              logs ++ [NetLog.invalidHeader m0 x0] else logs
            if 8 + m1 ≤ (cnt1 : Int) then ⟨.RECV_COMPLETE, payload, str1, rest, lg1⟩
            else recvLoop capacity str1 rest cnt1 hdr1 payload m1 x0 lg1
          else recvLoop capacity str1 rest cnt1 hdr1 payload mlen mix logs
        else
          let pay1 := payload ++ taken
          let m1 : Int := if (capacity : Int) < mlen then (capacity : Int) else mlen
          let lg1 := if (capacity : Int) < mlen then
            logs ++ [NetLog.invalidHeader mlen mix] else logs
          if 8 + m1 ≤ (cnt1 : Int) then ⟨.RECV_COMPLETE, pay1, str1, rest, lg1⟩
          else recvLoop capacity str1 rest cnt1 hdr pay1 m1 mix lg1

/-- `tcp_recv_message` (netio.c:253-322): starts a fresh parse — header
cursor at zero, header zeroed — and runs the read loop. -/
def tcp_recv_message (capacity : Nat) (stream : List Nat) (evs : List IoEv) : RecvOut :=
  recvLoop capacity stream evs 0 [] [] 0 0 []

/-- Claim C1 failing input.  The frame for payload "ab" (10 wire bytes,
from `tcp_send_message`) is delivered as 3 bytes, then EWOULDBLOCK, then
the remaining 7 bytes.  The first `tcp_recv_message` call consumes the
3 header bytes and returns `RECV_BLOCKED`, discarding its parse state;
the second call, given every remaining byte, restarts the header from
scratch on a stream whose first 3 bytes are gone, so the payload is
never reconstructed.  The continuation is not preserved across calls. -/
theorem C1_recv_blocked_loses_continuation :
    (tcp_recv_message 256 (sendWire [97, 98] 1) [.avail 3, .wouldblock]).status
        = .RECV_BLOCKED ∧
    (tcp_recv_message 256 (sendWire [97, 98] 1) [.avail 3, .wouldblock]).buffer = [] ∧
    (tcp_recv_message 256 (sendWire [97, 98] 1) [.avail 3, .wouldblock]).stream
        = [0, 1, 0, 0, 0, 97, 98] ∧
    (tcp_recv_message 256 [0, 1, 0, 0, 0, 97, 98]
        [.avail 10, .avail 10, .avail 10]).status ≠ .RECV_COMPLETE ∧
    (tcp_recv_message 256 [0, 1, 0, 0, 0, 97, 98]
        [.avail 10, .avail 10, .avail 10]).buffer ≠ [97, 98] := by
  decide

/-- Decoding only reads the first four bytes, so appending to a list of
length at least 4 does not change its decode. -/
lemma decode4_append (l m : List Nat) (h : 4 ≤ l.length) :
    decode4 (l ++ m) = decode4 l := by
  match l with
  | b0 :: b1 :: b2 :: b3 :: t => rfl
  | [] | [_] | [_, _] | [_, _, _] => simp at h

lemma sdecode4_append (l m : List Nat) (h : 4 ≤ l.length) :
    sdecode4 (l ++ m) = sdecode4 l := by
  unfold sdecode4
  rw [decode4_append l m h]

/-- Buffer-overrun safety of the receive loop: the payload written never
exceeds the caller's capacity, because the payload-phase `iov_len` is
derived from the clamped `header.msglen`. -/
lemma recvLoop_buffer_le (capacity : Nat) (evs : List IoEv) :
    ∀ (stream : List Nat) (cnt : Nat) (hdr payload : List Nat) (mlen mix : Int)
      (logs : List NetLog),
      (cnt < 8 → payload = []) →
      (8 ≤ cnt → Int.toNat mlen ≤ capacity ∧ payload.length ≤ Int.toNat mlen) →
      (recvLoop capacity stream evs cnt hdr payload mlen mix logs).buffer.length
        ≤ capacity := by
  induction evs with
  | nil =>
    intro stream cnt hdr payload mlen mix logs h1 h2
    simp only [recvLoop]
    rcases Nat.lt_or_ge cnt 8 with h | h
    · simp [h1 h]
    · exact le_trans (h2 h).2 (h2 h).1
  | cons ev rest ih =>
    intro stream cnt hdr payload mlen mix logs h1 h2
    have hbase : payload.length ≤ capacity := by
      rcases Nat.lt_or_ge cnt 8 with h | h
      · simp [h1 h]
      · exact le_trans (h2 h).2 (h2 h).1
    cases ev with
    | closed => simpa only [recvLoop] using hbase
    | wouldblock => simpa only [recvLoop] using hbase
    | errOther => simpa only [recvLoop] using hbase
    | avail k =>
      simp only [recvLoop]
      by_cases hc8 : cnt < 8
      · have hpay : payload = [] := h1 hc8
        subst hpay
        simp only [hc8, if_true, List.length_nil]
        by_cases hn :
            (min (min k (8 - cnt)) stream.length) = 0
        · simp [hn]
        · simp only [hn, if_false]
          have hnL : min (min k (8 - cnt)) stream.length ≤ 8 - cnt :=
            le_trans (Nat.min_le_left _ _) (Nat.min_le_right _ _)
          by_cases h81 : 8 ≤ cnt + min (min k (8 - cnt)) stream.length
          · simp only [h81, if_true]
            by_cases hcap : (capacity : Int) <
                sdecode4 (hdr ++ List.take (min (min k (8 - cnt)) stream.length) stream)
            · simp only [hcap, if_true]
              split
              · simp
              · exact ih _ _ _ _ _ _ _ (fun _ => rfl)
                  (fun _ => by constructor <;> simp)
            · simp only [hcap, if_false]
              split
              · simp
              · refine ih _ _ _ _ _ _ _ (fun _ => rfl) (fun _ => ?_)
                constructor
                · omega
                · simp
          · simp only [h81, if_false]
            exact ih _ _ _ _ _ _ _ (fun _ => rfl) (fun h8 => absurd h8 h81)
      · obtain ⟨hm, hp⟩ := h2 (Nat.le_of_not_lt hc8)
        simp only [hc8, if_false]
        by_cases hn :
            (min (min k (Int.toNat mlen - payload.length)) stream.length) = 0
        · simp only [hn, if_pos rfl]
          exact hbase
        · simp only [hn, if_false]
          have hnL : min (min k (Int.toNat mlen - payload.length)) stream.length
              ≤ Int.toNat mlen - payload.length :=
            le_trans (Nat.min_le_left _ _) (Nat.min_le_right _ _)
          have hns : min (min k (Int.toNat mlen - payload.length)) stream.length
              ≤ stream.length := Nat.min_le_right _ _
          have hcap : ¬ (capacity : Int) < mlen := by omega
          simp only [hcap, if_false]
          split
          · simp only [List.length_append, List.length_take]
            omega
          · refine ih _ _ _ _ _ _ _ (fun hlt => absurd hlt (by omega)) (fun _ => ?_)
            refine ⟨hm, ?_⟩
            simp only [List.length_append, List.length_take]
            omega

/-- After a clamp, the payload phase runs with `header.msglen` equal to
the capacity: on completion exactly `capacity` payload bytes have been
written, and log messages already emitted are retained. -/
lemma recvLoop_clamped (capacity : Nat) (evs : List IoEv) :
    ∀ (stream : List Nat) (cnt : Nat) (hdr payload : List Nat) (mix : Int)
      (logs : List NetLog),
      cnt = 8 + payload.length →
      payload.length ≤ capacity →
      ((recvLoop capacity stream evs cnt hdr payload (capacity : Int) mix logs).status
          = .RECV_COMPLETE →
        (recvLoop capacity stream evs cnt hdr payload (capacity : Int) mix
            logs).buffer.length = capacity) ∧
      (∀ l ∈ logs,
        l ∈ (recvLoop capacity stream evs cnt hdr payload (capacity : Int) mix
          logs).logs) := by
  induction evs with
  | nil =>
    intro stream cnt hdr payload mix logs hcnt hlen
    simp only [recvLoop]
    exact ⟨fun h => absurd h (by simp), fun l hl => hl⟩
  | cons ev rest ih =>
    intro stream cnt hdr payload mix logs hcnt hlen
    cases ev with
    | closed =>
      simp only [recvLoop]
      exact ⟨fun h => absurd h (by simp), fun l hl => hl⟩
    | wouldblock =>
      simp only [recvLoop]
      exact ⟨fun h => absurd h (by simp), fun l hl => hl⟩
    | errOther =>
      simp only [recvLoop]
      exact ⟨fun h => absurd h (by simp), fun l hl => hl⟩
    | avail k =>
      have hc8 : ¬ cnt < 8 := by omega
      simp only [recvLoop, hc8, if_false]
      have hmt : Int.toNat (capacity : Int) = capacity := Int.toNat_natCast capacity
      by_cases hn : (min (min k (Int.toNat (capacity : Int) - payload.length))
          stream.length) = 0
      · simp only [hn, if_pos rfl]
        exact ⟨fun h => absurd h (by simp), fun l hl => hl⟩
      · simp only [hn, if_false]
        have hnL : min (min k (Int.toNat (capacity : Int) - payload.length)) stream.length
            ≤ Int.toNat (capacity : Int) - payload.length :=
          le_trans (Nat.min_le_left _ _) (Nat.min_le_right _ _)
        have hns : min (min k (Int.toNat (capacity : Int) - payload.length)) stream.length
            ≤ stream.length := Nat.min_le_right _ _
        have hcap : ¬ (capacity : Int) < (capacity : Int) := lt_irrefl _
        simp only [hcap, if_false]
        split
        · rename_i hcomp
          refine ⟨fun _ => ?_, fun l hl => hl⟩
          simp only [List.length_append, List.length_take]
          omega
        · rename_i hcomp
          refine ih _ _ _ _ _ _ ?_ ?_
          · simp only [List.length_append, List.length_take]
            omega
          · simp only [List.length_append, List.length_take]
            omega

/-- Header phase with an oversized declared length: once the header
completes, the length is clamped, the protocol error is logged, and a
completed receive has written exactly `capacity` bytes. -/
lemma recvLoop_header_clamp (capacity : Nat) (evs : List IoEv) :
    ∀ (stream : List Nat) (cnt : Nat) (hdr : List Nat) (mlen mix : Int)
      (logs : List NetLog),
      cnt < 8 →
      cnt = hdr.length →
      (capacity : Int) < sdecode4 (hdr ++ stream) →
      ((recvLoop capacity stream evs cnt hdr [] mlen mix logs).status
          = .RECV_COMPLETE →
        (recvLoop capacity stream evs cnt hdr [] mlen mix logs).buffer.length
            = capacity ∧
        NetLog.invalidHeader (sdecode4 (hdr ++ stream))
            (sdecode4 ((hdr ++ stream).drop 4))
          ∈ (recvLoop capacity stream evs cnt hdr [] mlen mix logs).logs) := by
  induction evs with
  | nil =>
    intro stream cnt hdr mlen mix logs hlt hcnt hover
    simp only [recvLoop]
    exact fun h => absurd h (by simp)
  | cons ev rest ih =>
    intro stream cnt hdr mlen mix logs hlt hcnt hover
    cases ev with
    | closed =>
      simp only [recvLoop]
      exact fun h => absurd h (by simp)
    | wouldblock =>
      simp only [recvLoop]
      exact fun h => absurd h (by simp)
    | errOther =>
      simp only [recvLoop]
      exact fun h => absurd h (by simp)
    | avail k =>
      simp only [recvLoop, hlt, if_true, List.length_nil]
      by_cases hn : (min (min k (8 - cnt)) stream.length) = 0
      · simp only [hn, if_pos rfl]
        exact fun h => absurd h (by simp)
      · simp only [hn, if_false]
        have hnL : min (min k (8 - cnt)) stream.length ≤ 8 - cnt :=
          le_trans (Nat.min_le_left _ _) (Nat.min_le_right _ _)
        have hns : min (min k (8 - cnt)) stream.length ≤ stream.length :=
          Nat.min_le_right _ _
        have hjoin : (hdr ++ List.take (min (min k (8 - cnt)) stream.length) stream)
            ++ List.drop (min (min k (8 - cnt)) stream.length) stream
            = hdr ++ stream := by
          rw [List.append_assoc, List.take_append_drop]
        by_cases h81 : 8 ≤ cnt + min (min k (8 - cnt)) stream.length
        · have hlen1 : (hdr ++ List.take (min (min k (8 - cnt)) stream.length)
              stream).length = 8 := by
            simp only [List.length_append, List.length_take]
            omega
          have hdec : sdecode4 (hdr ++ List.take (min (min k (8 - cnt)) stream.length)
              stream) = sdecode4 (hdr ++ stream) := by
            rw [← hjoin]
            exact (sdecode4_append _ _ (by omega)).symm
          have hsplit : (hdr ++ stream).drop 4
              = (hdr ++ List.take (min (min k (8 - cnt)) stream.length) stream).drop 4
                ++ List.drop (min (min k (8 - cnt)) stream.length) stream := by
            rw [← hjoin]
            exact List.drop_append_of_le_length (by omega)
          have hdec2 : sdecode4 ((hdr ++ List.take (min (min k (8 - cnt)) stream.length)
              stream).drop 4) = sdecode4 ((hdr ++ stream).drop 4) := by
            rw [hsplit]
            refine (sdecode4_append _ _ ?_).symm
            simp only [List.length_drop]
            omega
          have hcap : (capacity : Int) < sdecode4
              (hdr ++ List.take (min (min k (8 - cnt)) stream.length) stream) := by
            rw [hdec]; exact hover
          simp only [h81, if_true, hcap, if_true]
          by_cases hcomp : 8 + (capacity : Int)
              ≤ ((cnt + min (min k (8 - cnt)) stream.length : Nat) : Int)
          · simp only [hcomp, if_true]
            intro _
            constructor
            · simp only [List.length_nil]
              omega
            · rw [← hdec, ← hdec2]
              simp
          · simp only [hcomp, if_false]
            intro hst
            have h8eq : cnt + min (min k (8 - cnt)) stream.length = 8 := by omega
            have hrec := recvLoop_clamped capacity rest
              (List.drop (min (min k (8 - cnt)) stream.length) stream)
              (cnt + min (min k (8 - cnt)) stream.length)
              (hdr ++ List.take (min (min k (8 - cnt)) stream.length) stream) []
              (sdecode4 ((hdr ++ List.take (min (min k (8 - cnt)) stream.length)
                stream).drop 4))
              (logs ++ [NetLog.invalidHeader
                (sdecode4 (hdr ++ List.take (min (min k (8 - cnt)) stream.length) stream))
                (sdecode4 ((hdr ++ List.take (min (min k (8 - cnt)) stream.length)
                  stream).drop 4))])
              (by simp only [List.length_nil, Nat.add_zero]; exact h8eq) (by simp)
            refine ⟨hrec.1 hst, ?_⟩
            rw [← hdec, ← hdec2]
            exact hrec.2 _ (by simp)
        · simp only [h81, if_false]
          rw [← hjoin]
          refine ih (List.drop (min (min k (8 - cnt)) stream.length) stream)
            (cnt + min (min k (8 - cnt)) stream.length)
            (hdr ++ List.take (min (min k (8 - cnt)) stream.length) stream)
            mlen mix logs ?_ ?_ ?_
          · omega
          · simp only [List.length_append, List.length_take]
            omega
          · rw [hjoin]
            exact hover

/-- Claim C3: if the header of an incoming frame declares a length
greater than the receive capacity (read as the C `int` it is), the
receive never writes past the capacity, and a completed receive has
written exactly `capacity` bytes (the clamped length) and has logged the
protocol error; the status is whatever the subsequent stream dictates,
so the connection survives. -/
theorem C3_clamp_safety (capacity : Nat) (stream : List Nat) (evs : List IoEv)
    (hover : (capacity : Int) < sdecode4 stream) :
    (tcp_recv_message capacity stream evs).buffer.length ≤ capacity ∧
    ((tcp_recv_message capacity stream evs).status = .RECV_COMPLETE →
      (tcp_recv_message capacity stream evs).buffer.length = capacity ∧
      NetLog.invalidHeader (sdecode4 stream) (sdecode4 (stream.drop 4))
        ∈ (tcp_recv_message capacity stream evs).logs) := by
  constructor
  · exact recvLoop_buffer_le capacity evs stream 0 [] [] 0 0 []
      (fun _ => rfl) (fun h => absurd h (by omega))
  · have := recvLoop_header_clamp capacity evs stream 0 [] 0 0 []
      (by omega) rfl (by simpa using hover)
    simpa [tcp_recv_message] using this

/-- Witness for C3: a frame declaring length 300 received into a 4-byte
buffer completes after exactly 4 payload bytes, with the protocol error
logged. -/
theorem C3_witness :
    ((4 : Nat) : Int) < sdecode4 [44, 1, 0, 0, 7, 0, 0, 0, 1, 2, 3, 4, 5] ∧
    ((tcp_recv_message 4 [44, 1, 0, 0, 7, 0, 0, 0, 1, 2, 3, 4, 5]
        [.avail 100, .avail 100]).buffer.length ≤ 4 ∧
      ((tcp_recv_message 4 [44, 1, 0, 0, 7, 0, 0, 0, 1, 2, 3, 4, 5]
          [.avail 100, .avail 100]).status = .RECV_COMPLETE →
        (tcp_recv_message 4 [44, 1, 0, 0, 7, 0, 0, 0, 1, 2, 3, 4, 5]
            [.avail 100, .avail 100]).buffer.length = 4 ∧
        NetLog.invalidHeader (sdecode4 [44, 1, 0, 0, 7, 0, 0, 0, 1, 2, 3, 4, 5])
            (sdecode4 ([44, 1, 0, 0, 7, 0, 0, 0, 1, 2, 3, 4, 5].drop 4))
          ∈ (tcp_recv_message 4 [44, 1, 0, 0, 7, 0, 0, 0, 1, 2, 3, 4, 5]
              [.avail 100, .avail 100]).logs)) :=
  ⟨by decide, C3_clamp_safety 4 _ _ (by decide)⟩

/-! ### endpoint.c: send queues and the connection registry

`tBufferStc` entries form the singly linked send queue (`msgfirst.next`
is the head, `msglast.next` the tail); we model a queue as the Lean list
of its entries, head first.  The `buffer` pointer may be NULL, hence
`Option`.  (The `msglen` field of the C struct is never read on the
dispatcher path — `send_message` recomputes `strlen` — so it is not
modelled.) -/

/-- One send-queue entry (endpoint.c:57-64). -/
structure tBufferStc where
  msgix : Int
  buffer : Option (List Nat)
deriving DecidableEq, Repr

/-- The connection states of netio.h. -/
def STATE_IDLE : Nat := 0
def STATE_PENDING : Nat := 1
def STATE_READY : Nat := 2

/-- One outbound-connection registry entry (endpoint.c:78-93); the
doubly linked list is modelled as the list of entries in link order, and
the owned send queue as `queue`.  (`sendport` is uninitialised in C
until the connect resolves; we carry whatever value the record holds.) -/
structure tConnectStc where
  sockfd : Int
  destport : Int
  sendport : Int
  state : Nat
  msgix : Int
  sntix : Int
  rspix : Int
  pndix : Int
  queue : List tBufferStc
deriving DecidableEq, Repr

/-- `get_message` (endpoint.c:869-891): returns the head entry of the
queue; entries with a NULL buffer ahead of it are unlinked and freed
on the way.  Returns the found entry (if any) and the queue as it is
left. -/
def get_message : List tBufferStc → Option tBufferStc × List tBufferStc
  | [] => (none, [])
  | e :: rest =>
    if e.buffer.isNone then get_message rest
    else (some e, e :: rest)

/-- `add_message` (endpoint.c:780-817): appends a copy of `buffer` at
the tail.  Fails (-1) on a NULL buffer or allocation failure (`allocOk`
is the malloc oracle); on failure the queue is unchanged. -/
def add_message (allocOk : Bool) (q : List tBufferStc) (msgix : Int)
    (buffer : Option (List Nat)) : Int × List tBufferStc :=
  match buffer with
  | none => (-1, q)
  | some b => if allocOk then (0, q ++ [⟨msgix, some b⟩]) else (-1, q)

/-- `rem_message` (endpoint.c:834-849): unlinks and frees the first
entry; a no-op on an empty queue. -/
def rem_message : List tBufferStc → List tBufferStc
  | [] => []
  | _ :: rest => rest

/-- Result of `send_message`: the C return code, the connection as left
(`none` when `rem_connection` was called on it), and the buffer that was
handed to `tcp_send_message` (if the call was reached). -/
structure SendMsgOut where
  retcode : Int
  conn : Option tConnectStc
  attempted : Option (List Nat)
deriving DecidableEq, Repr

/-- `send_message` (endpoint.c:708-761).  If a message is pending in the
queue it is always the one attempted; a newly submitted `newbuf` is then
appended at the tail.  `SEND_BLOCKED` re-queues only a new message that
was sent directly (a pending one is already at the head) and bumps
`pndix`; `SEND_COMPLETE` bumps `sntix` and pops the head if it came from
the queue; `SEND_FAILURE` removes the connection.  (When `add_message`
fails the C code removes the connection yet keeps using the freed
record; we mirror the field reads on the stale record and report the
connection as removed.) -/
def send_message (os : SendmsgOutcome) (allocOk : Bool) (conn : tConnectStc)
    (newbuf : Option (List Nat)) : SendMsgOut :=
  match get_message conn.queue, newbuf with
  | (some pending, q1), nb =>
    let ar : Int × List tBufferStc := match nb with
      | some b => add_message allocOk q1 conn.msgix (some b)
      | none => ((0 : Int), q1)
    let removed := ar.1 ≠ 0
    let sendbuf := pending.buffer.getD []
    match tcp_send_message sendbuf sendbuf.length conn.msgix os with
    | .SEND_BLOCKED =>
      ⟨-1, if removed then none
           else some { conn with queue := ar.2, pndix := conn.pndix + 1 }, some sendbuf⟩
    | .SEND_FAILURE => ⟨-1, none, some sendbuf⟩
    | .SEND_COMPLETE =>
      ⟨0, if removed then none
          else some { conn with queue := rem_message ar.2, sntix := conn.sntix + 1 },
       some sendbuf⟩
  | (none, q1), some b =>
    match tcp_send_message b b.length conn.msgix os with
    | .SEND_BLOCKED =>
      let q2 := (add_message allocOk q1 conn.msgix (some b)).2
      ⟨-1, some { conn with queue := q2, pndix := conn.pndix + 1 }, some b⟩
    | .SEND_FAILURE => ⟨-1, none, some b⟩
    | .SEND_COMPLETE =>
      ⟨0, some { conn with queue := q1, sntix := conn.sntix + 1 }, some b⟩
  | (none, q1), none => ⟨-1, some { conn with queue := q1 }, none⟩

/-- The dispatcher's drain loop `while (! send_message (connection, 0)) { }`
(endpoint.c:1360), driven by one `sendmsg` outcome per iteration. -/
def drainLoop : List SendmsgOutcome → Bool → tConnectStc → Option tConnectStc
  | [], _, conn => some conn
  | os :: rest, allocOk, conn =>
    let r := send_message os allocOk conn none
    if r.retcode = 0 then
      match r.conn with
      | some c1 => drainLoop rest allocOk c1
      | none => none
    else r.conn

/-- Claim C9: `get_message` returns the oldest entry whose buffer is
non-NULL (the queue is left with exactly the entries from that one on,
the NULL-buffer prefix having been unlinked and freed); a `some` result
always has a non-NULL buffer; the result is `none` precisely when the
queue is empty or holds only NULL-buffer entries. -/
theorem C9_get_message (q : List tBufferStc) :
    get_message q = ((q.dropWhile fun e => e.buffer.isNone).head?,
      q.dropWhile fun e => e.buffer.isNone) ∧
    (∀ e, (get_message q).1 = some e → e.buffer.isSome = true) ∧
    ((get_message q).1 = none ↔ ∀ e ∈ q, e.buffer = none) := by
  induction q with
  | nil => simp [get_message]
  | cons e rest ih =>
    rcases e with ⟨eix, ebuf⟩
    cases ebuf with
    | none =>
      have hgm : get_message (⟨eix, none⟩ :: rest) = get_message rest := by
        simp [get_message]
      have hdw : (⟨eix, none⟩ :: rest).dropWhile (fun e => e.buffer.isNone)
          = rest.dropWhile (fun e => e.buffer.isNone) := by
        simp [List.dropWhile_cons]
      rw [hgm, hdw]
      refine ⟨ih.1, ih.2.1, ?_⟩
      rw [ih.2.2]
      simp
    | some bb =>
      have hgm : get_message (⟨eix, some bb⟩ :: rest)
          = (some ⟨eix, some bb⟩, ⟨eix, some bb⟩ :: rest) := by
        simp [get_message]
      have hdw : (⟨eix, some bb⟩ :: rest).dropWhile (fun e => e.buffer.isNone)
          = ⟨eix, some bb⟩ :: rest := by
        simp [List.dropWhile_cons]
      rw [hgm, hdw]
      refine ⟨by simp, ?_, ?_⟩
      · intro e2 h2
        simp only [Option.some_inj] at h2
        rw [← h2]
        rfl
      · simp only [Option.some_ne_none, false_iff]
        intro hall
        have := hall ⟨eix, some bb⟩ (by simp)
        simp at this

/-- Witness for C9: a queue whose head has a NULL buffer yields the
second entry, whose buffer is non-NULL. -/
theorem C9_witness :
    (get_message [⟨1, none⟩, ⟨2, some [104]⟩]).1 = some ⟨2, some [104]⟩ ∧
    (⟨2, some [104]⟩ : tBufferStc).buffer.isSome = true :=
  ⟨by decide, (C9_get_message [⟨1, none⟩, ⟨2, some [104]⟩]).2.1 _ (by decide)⟩

/-- A freshly queued entry as `add_message` builds it: the message index
and a copy of the payload. -/
def queuedEntry (msgix : Int) (b : List Nat) : tBufferStc :=
  ⟨msgix, some b⟩

/-- Claim C4: with a non-empty queue (valid head `⟨ix, some pb⟩`), the
head frame is the one attempted; on `SEND_COMPLETE` it is popped and
`sntix` incremented; on `SEND_BLOCKED` it stays at the head, `pndix` is
incremented and the drain loop stops; on `SEND_FAILURE` the connection
is removed; a newly submitted message is appended at the tail while the
head is attempted, and a new message is the one transmitted only when
the queue is empty at submission time. -/
theorem C4_send_path (conn : tConnectStc) (os : SendmsgOutcome) (ix : Int)
    (pb : List Nat) (q : List tBufferStc) (b : List Nat)
    (hq : conn.queue = ⟨ix, some pb⟩ :: q) :
    ((send_message os true conn (some b)).attempted = some pb ∧
     (0 < os.n →
       send_message os true conn (some b) =
         { retcode := 0,
           conn := some
             { conn with
               queue := q ++ [queuedEntry conn.msgix b],
               sntix := conn.sntix + 1 },
           attempted := some pb }) ∧
     (os.n < 0 ∧ os.ewouldblock = true →
       send_message os true conn (some b) =
         { retcode := -1,
           conn := some
             { conn with
               queue := queuedEntry ix pb :: (q ++ [queuedEntry conn.msgix b]),
               pndix := conn.pndix + 1 },
           attempted := some pb }) ∧
     (¬ 0 < os.n → ¬ (os.n < 0 ∧ os.ewouldblock = true) →
       (send_message os true conn (some b)).conn = none)) ∧
    ((send_message os true conn none).attempted = some pb ∧
     (0 < os.n →
       send_message os true conn none =
         { retcode := 0,
           conn := some { conn with queue := q, sntix := conn.sntix + 1 },
           attempted := some pb }) ∧
     (os.n < 0 ∧ os.ewouldblock = true → ∀ rest : List SendmsgOutcome,
       drainLoop (os :: rest) true conn =
         some
           { conn with
             queue := queuedEntry ix pb :: q,
             pndix := conn.pndix + 1 })) ∧
    (∀ c2 : tConnectStc, c2.queue = [] →
      (send_message os true c2 (some b)).attempted = some b) := by
  have hg : get_message conn.queue = (some ⟨ix, some pb⟩, ⟨ix, some pb⟩ :: q) := by
    rw [hq]; simp [get_message]
  refine ⟨⟨?_, ?_, ?_, ?_⟩, ⟨?_, ?_, ?_⟩, ?_⟩
  · cases htcp : tcp_send_message pb pb.length conn.msgix os <;>
      simp [send_message, hg, add_message, htcp]
  · intro h
    have htcp : tcp_send_message pb pb.length conn.msgix os = .SEND_COMPLETE := by
      simp [tcp_send_message, h]
    simp [send_message, hg, add_message, htcp, rem_message, queuedEntry]
  · intro h
    have htcp : tcp_send_message pb pb.length conn.msgix os = .SEND_BLOCKED := by
      have h1 : ¬ 0 < os.n := by omega
      simp [tcp_send_message, h1, h.1, h.2]
    simp [send_message, hg, add_message, htcp, queuedEntry]
  · intro h1 h2
    have htcp : tcp_send_message pb pb.length conn.msgix os = .SEND_FAILURE := by
      simp [tcp_send_message, h1]
      intro hneg
      rcases h : os.ewouldblock
      · rfl
      · exact absurd ⟨hneg, h⟩ h2
    simp [send_message, hg, htcp]
  · cases htcp : tcp_send_message pb pb.length conn.msgix os <;>
      simp [send_message, hg, htcp]
  · intro h
    have htcp : tcp_send_message pb pb.length conn.msgix os = .SEND_COMPLETE := by
      simp [tcp_send_message, h]
    simp [send_message, hg, htcp, rem_message]
  · intro h rest
    have htcp : tcp_send_message pb pb.length conn.msgix os = .SEND_BLOCKED := by
      have h1 : ¬ 0 < os.n := by omega
      simp [tcp_send_message, h1, h.1, h.2]
    rw [hq] at hg
    simp [drainLoop, send_message, hg, htcp, hq, queuedEntry]
  · intro c2 hc2
    cases htcp : tcp_send_message b b.length c2.msgix os <;>
      simp [send_message, hc2, get_message, htcp]

/-- Witness for C4 at a concrete connection and outcome: with `"x"`
pending and a complete send, the head is popped and `sntix` becomes 1. -/
theorem C4_witness :
    send_message ⟨5, false⟩ true
        ⟨3, 9001, 0, STATE_READY, 7, 0, 0, 0, [⟨1, some [120]⟩]⟩ (some [121]) =
      ⟨0, some ⟨3, 9001, 0, STATE_READY, 7, 1, 0, 0, [⟨7, some [121]⟩]⟩,
        some [120]⟩ := by
  have h := (C4_send_path ⟨3, 9001, 0, STATE_READY, 7, 0, 0, 0, [⟨1, some [120]⟩]⟩
    ⟨5, false⟩ 1 [120] [] [121] rfl).1.2.1 (by decide)
  simpa using h

/-! ### netio.c: tcp_connect_to_server, and the registry operations -/

/-- Outcome of the non-blocking `connect` call: immediate success,
`EINPROGRESS`, or any other error. -/
inductive ConnectOutcome where
  | success
  | inProgress
  | failOther
deriving DecidableEq, Repr

/-- `tcp_connect_to_server` (netio.c:128-160): a non-positive port is
rejected with `STATE_IDLE`; otherwise the connect outcome maps to
READY (immediate success), PENDING (`EINPROGRESS`) or IDLE (any other
error, logged). -/
def tcp_connect_to_server (portno : Int) (oc : ConnectOutcome) : Nat :=
  if portno ≤ 0 then STATE_IDLE
  else
    match oc with
    | .inProgress => STATE_PENDING
    | .failOther => STATE_IDLE
    | .success => STATE_READY

/-- `find_connection` (endpoint.c:363-373): first entry with the
destination port. -/
def find_connection (reg : List tConnectStc) (destport : Int) : Option tConnectStc :=
  match reg with
  | [] => none
  | c :: rest => if c.destport = destport then some c else find_connection rest destport

/-- Oracles consumed by one `add_connection` call: the malloc outcome,
the descriptor `tcp_create_socket(0)` returns, and the connect outcome. -/
structure AddEnv where
  mallocOk : Bool
  sockfd : Int
  connectOutcome : ConnectOutcome
deriving DecidableEq, Repr

/-- `add_connection` (endpoint.c:388-455): duplicate port, malloc
failure, socket failure or a `STATE_IDLE` connect all create nothing;
otherwise the new entry (counters zeroed, empty queue, state as the
connect left it) is appended at the tail of the registry.  (`sendport`
is left uninitialised by the C code; the model uses 0.) -/
def add_connection (env : AddEnv) (reg : List tConnectStc) (destport : Int) :
    Option tConnectStc × List tConnectStc :=
  if (find_connection reg destport).isSome then (none, reg)
  else if env.mallocOk = false then (none, reg)
  else if env.sockfd < 0 then (none, reg)
  else
    let state := tcp_connect_to_server destport env.connectOutcome
    if state = STATE_IDLE then (none, reg)
    else
      let c : tConnectStc :=
        { sockfd := env.sockfd, destport := destport, sendport := 0, state := state,
          msgix := 0, sntix := 0, rspix := 0, pndix := 0, queue := [] }
      (some c, reg ++ [c])

/-- Log events of `rem_connection`: the closing message on success and
the "Connection not found" error. -/
inductive RegLog where
  | remClosing (port : Int)
  | remNotFound (port : Int)
deriving DecidableEq, Repr

/-- `rem_connection` (endpoint.c:468-507): walks the registry; the first
entry with the destination port is closed, unlinked and freed and the
walk stops; if the walk ends without a match an error is logged and
nothing changes. -/
def rem_connection (reg : List tConnectStc) (destport : Int) :
    List tConnectStc × List RegLog :=
  match reg with
  | [] => ([], [RegLog.remNotFound destport])
  | c :: rest =>
    if c.destport = destport then (rest, [RegLog.remClosing destport])
    else
      let r := rem_connection rest destport
      (c :: r.1, r.2)

/-- Number of registry entries for a destination port. -/
def portCount (reg : List tConnectStc) (p : Int) : Nat :=
  (reg.filter fun c => decide (c.destport = p)).length

lemma find_connection_eq_none_iff (reg : List tConnectStc) (p : Int) :
    find_connection reg p = none ↔ ∀ c ∈ reg, c.destport ≠ p := by
  induction reg with
  | nil => simp [find_connection]
  | cons c rest ih =>
    by_cases hc : c.destport = p
    · simp [find_connection, hc]
    · simp [find_connection, hc, ih]

lemma portCount_append_single (reg : List tConnectStc) (c : tConnectStc) (p : Int) :
    portCount (reg ++ [c]) p
      = portCount reg p + (if c.destport = p then 1 else 0) := by
  simp only [portCount, List.filter_append]
  by_cases hc : c.destport = p <;> simp [hc]

lemma portCount_eq_zero_of_find_none (reg : List tConnectStc) (p : Int)
    (h : find_connection reg p = none) : portCount reg p = 0 := by
  rw [find_connection_eq_none_iff] at h
  induction reg with
  | nil => rfl
  | cons c rest ih =>
    have hc : c.destport ≠ p := h c (by simp)
    simp only [portCount, List.filter_cons]
    rw [if_neg (by simpa using hc)]
    exact ih (fun x hx => h x (by simp [hx]))

lemma rem_connection_not_found (reg : List tConnectStc) (p : Int)
    (h : ∀ c ∈ reg, c.destport ≠ p) :
    rem_connection reg p = (reg, [RegLog.remNotFound p]) := by
  induction reg with
  | nil => rfl
  | cons c rest ih =>
    have hc : c.destport ≠ p := h c (by simp)
    simp only [rem_connection, hc, if_false]
    rw [ih (fun x hx => h x (by simp [hx]))]

lemma rem_connection_found (pre : List tConnectStc) (c : tConnectStc)
    (post : List tConnectStc) (p : Int) (hc : c.destport = p)
    (hpre : ∀ x ∈ pre, x.destport ≠ p) :
    rem_connection (pre ++ c :: post) p = (pre ++ post, [RegLog.remClosing p]) := by
  induction pre with
  | nil => simp [rem_connection, hc]
  | cons a t ih =>
    have ha : a.destport ≠ p := hpre a (by simp)
    rw [List.cons_append]
    simp only [rem_connection, ha, if_false]
    rw [ih (fun x hx => hpre x (by simp [hx]))]
    simp

/-- A successful `add_connection` implies the port was absent, the new
entry carries that destination port, and it was appended at the tail. -/
lemma add_connection_success (env : AddEnv) (reg : List tConnectStc) (p : Int)
    (c : tConnectStc) (hc : (add_connection env reg p).1 = some c) :
    find_connection reg p = none ∧ c.destport = p ∧
    (add_connection env reg p).2 = reg ++ [c] := by
  by_cases h1 : (find_connection reg p).isSome = true
  · rw [show add_connection env reg p = (none, reg) by simp [add_connection, h1]] at hc
    exact absurd hc (by simp)
  by_cases h2 : env.mallocOk = false
  · rw [show add_connection env reg p = (none, reg) by
      simp [add_connection, h1, h2]] at hc
    exact absurd hc (by simp)
  by_cases h3 : env.sockfd < 0
  · rw [show add_connection env reg p = (none, reg) by
      simp [add_connection, h1, h2, h3]] at hc
    exact absurd hc (by simp)
  by_cases h4 : tcp_connect_to_server p env.connectOutcome = STATE_IDLE
  · rw [show add_connection env reg p = (none, reg) by
      simp [add_connection, h1, h2, h3, h4]] at hc
    exact absurd hc (by simp)
  have hc1 : (add_connection env reg p).1 =
      some { sockfd := env.sockfd, destport := p, sendport := 0,
             state := tcp_connect_to_server p env.connectOutcome,
             msgix := 0, sntix := 0, rspix := 0, pndix := 0, queue := [] } := by
    simp [add_connection, h1, h2, h3, h4]
  rw [hc1] at hc
  have hcc := Option.some_inj.mp hc
  subst hcc
  refine ⟨?_, rfl, ?_⟩
  · rcases hf : find_connection reg p with _ | c0
    · rfl
    · rw [hf] at h1; simp at h1
  · simp [add_connection, h1, h2, h3, h4]

/-- Claim C6: `add_connection` on a port that already has an entry fails
and changes nothing; adding preserves at-most-one-entry-per-port; and
after a successful add, the port has exactly one entry and a second add
for the same port reports the duplicate and leaves the registry as it
was. -/
theorem C6_registry_unique (env env2 : AddEnv) (reg : List tConnectStc) (p : Int) :
    ((find_connection reg p).isSome = true → add_connection env reg p = (none, reg)) ∧
    ((∀ q2, portCount reg q2 ≤ 1) →
      ∀ q2, portCount (add_connection env reg p).2 q2 ≤ 1) ∧
    (∀ c, (add_connection env reg p).1 = some c →
      portCount (add_connection env reg p).2 p = 1 ∧
      add_connection env2 (add_connection env reg p).2 p
        = (none, (add_connection env reg p).2)) := by
  refine ⟨?_, ?_, ?_⟩
  · intro h
    simp [add_connection, h]
  · intro hall q2
    simp only [add_connection]
    split_ifs with h1 h2 h3 h4
    · exact hall q2
    · exact hall q2
    · exact hall q2
    · exact hall q2
    · have hfind : find_connection reg p = none := by
        rcases hf : find_connection reg p with _ | c0
        · rfl
        · rw [hf] at h1; simp at h1
      rw [portCount_append_single]
      by_cases hq : q2 = p
      · subst hq
        rw [portCount_eq_zero_of_find_none reg q2 hfind]
        split_ifs <;> omega
      · have hne : ¬ (p = q2) := fun h => hq h.symm
        simp only [hne, if_false]
        rw [Nat.add_zero]
        exact hall q2
  · intro c hc
    obtain ⟨hfind, hdp, h2eq⟩ := add_connection_success env reg p c hc
    rw [h2eq]
    have hcount : portCount (reg ++ [c]) p = 1 := by
      rw [portCount_append_single, portCount_eq_zero_of_find_none reg p hfind, hdp]
      simp
    have hsome : (find_connection (reg ++ [c]) p).isSome = true := by
      rcases hf : find_connection (reg ++ [c]) p with _ | c0
      · rw [find_connection_eq_none_iff] at hf
        exact absurd hdp (hf c (by simp))
      · rfl
    exact ⟨hcount, by simp [add_connection, hsome]⟩

/-- Witness for C6: adding port 9001 to an empty registry succeeds
(PENDING), the port then has exactly one entry, and a second add for
9001 reports the duplicate and leaves the registry unchanged. -/
theorem C6_witness :
    portCount (add_connection ⟨true, 3, .inProgress⟩ [] 9001).2 9001 = 1 ∧
    add_connection ⟨true, 4, .success⟩
        (add_connection ⟨true, 3, .inProgress⟩ [] 9001).2 9001
      = (none, (add_connection ⟨true, 3, .inProgress⟩ [] 9001).2) :=
  (C6_registry_unique ⟨true, 3, .inProgress⟩ ⟨true, 4, .success⟩ [] 9001).2.2
    ⟨3, 9001, 0, STATE_PENDING, 0, 0, 0, 0, []⟩ (by decide)

/-- Claim C10: `rem_connection` for a port with no entry logs the error
and leaves the registry exactly as it was; when an entry exists, the
first matching entry is closed, unlinked and freed and every other entry
stays linked in order. -/
theorem C10_rem_connection (reg : List tConnectStc) (p : Int) :
    ((∀ c ∈ reg, c.destport ≠ p) →
      rem_connection reg p = (reg, [RegLog.remNotFound p])) ∧
    (∀ pre c post, reg = pre ++ c :: post → c.destport = p →
      (∀ x ∈ pre, x.destport ≠ p) →
      rem_connection reg p = (pre ++ post, [RegLog.remClosing p])) := by
  constructor
  · exact rem_connection_not_found reg p
  · intro pre c post hre hc hpre
    rw [hre]
    exact rem_connection_found pre c post p hc hpre

/-- Witness for C10 at a two-entry registry: removing an absent port
changes nothing and logs the error; removing 9002 deletes exactly
that entry. -/
theorem C10_witness :
    rem_connection [⟨3, 9001, 0, 2, 0, 0, 0, 0, []⟩, ⟨4, 9002, 0, 2, 0, 0, 0, 0, []⟩] 7
      = ([⟨3, 9001, 0, 2, 0, 0, 0, 0, []⟩, ⟨4, 9002, 0, 2, 0, 0, 0, 0, []⟩],
         [RegLog.remNotFound 7]) ∧
    rem_connection [⟨3, 9001, 0, 2, 0, 0, 0, 0, []⟩, ⟨4, 9002, 0, 2, 0, 0, 0, 0, []⟩] 9002
      = ([⟨3, 9001, 0, 2, 0, 0, 0, 0, []⟩], [RegLog.remClosing 9002]) :=
  ⟨(C10_rem_connection _ 7).1 (by decide),
   by
    have h := (C10_rem_connection
      [⟨3, 9001, 0, 2, 0, 0, 0, 0, []⟩, ⟨4, 9002, 0, 2, 0, 0, 0, 0, []⟩] 9002).2
      [⟨3, 9001, 0, 2, 0, 0, 0, 0, []⟩] ⟨4, 9002, 0, 2, 0, 0, 0, 0, []⟩ []
      rfl (by decide) (by decide)
    simpa using h⟩

/-! ### endpoint.c: pending-connect resolution and the write-ready path -/

/-- Outcome of the `getsockopt(SO_ERROR)` query on a pending socket. -/
inductive GetsockoptRes where
  | fail
  | ok (sock_error : Int)
deriving DecidableEq, Repr

/-- Resolution of a PENDING connect on write-readiness
(endpoint.c:1328-1357): a failed query or a non-zero pending error
removes the connection; a zero error records the assigned local send
port (`getsockname`) and moves the connection to READY. -/
def resolvePending (r : GetsockoptRes) (localPort : Int) (conn : tConnectStc) :
    Option tConnectStc :=
  match r with
  | .fail => none
  | .ok e =>
    if e ≠ 0 then none
    else some { conn with sendport := localPort, state := STATE_READY }

/-- The write-ready handling of one connection (endpoint.c:1320-1361):
resolve the connect when PENDING, then drain the send queue. -/
def writeReadyStep (r : GetsockoptRes) (localPort : Int)
    (oss : List SendmsgOutcome) (conn : tConnectStc) : Option tConnectStc :=
  if conn.state = STATE_PENDING then
    match resolvePending r localPort conn with
    | none => none
    | some c1 => drainLoop oss true c1
  else drainLoop oss true conn

/-- `send_message` never changes the state field of a surviving
connection. -/
lemma send_message_state (os : SendmsgOutcome) (allocOk : Bool)
    (conn : tConnectStc) (nb : Option (List Nat)) (c' : tConnectStc)
    (h : (send_message os allocOk conn nb).conn = some c') :
    c'.state = conn.state := by
  rcases hg : get_message conn.queue with ⟨po, q1⟩
  cases po with
  | none =>
    cases nb with
    | none =>
      simp [send_message, hg] at h
      rw [← h]
    | some b =>
      cases htcp : tcp_send_message b b.length conn.msgix os <;>
        simp [send_message, hg, htcp] at h <;> rw [← h]
  | some pending =>
    cases nb with
    | none =>
      cases htcp : tcp_send_message (pending.buffer.getD [])
          (pending.buffer.getD []).length conn.msgix os <;>
        simp [send_message, hg, htcp] at h <;> rw [← h]
    | some b =>
      cases allocOk <;>
        cases htcp : tcp_send_message (pending.buffer.getD [])
            (pending.buffer.getD []).length conn.msgix os <;>
          simp [send_message, hg, htcp, add_message] at h <;> rw [← h]

/-- The drain loop never changes the state field of a surviving
connection. -/
lemma drainLoop_state (oss : List SendmsgOutcome) (allocOk : Bool) :
    ∀ (conn c' : tConnectStc), drainLoop oss allocOk conn = some c' →
      c'.state = conn.state := by
  induction oss with
  | nil =>
    intro conn c' h
    simp [drainLoop] at h
    rw [← h]
  | cons os rest ih =>
    intro conn c' h
    simp only [drainLoop] at h
    by_cases hr : (send_message os allocOk conn none).retcode = 0
    · rw [if_pos hr] at h
      rcases hc : (send_message os allocOk conn none).conn with _ | c1
      · rw [hc] at h
        simp at h
      · rw [hc] at h
        simp only at h
        rw [ih c1 c' h]
        exact send_message_state os allocOk conn none c1 hc
    · rw [if_neg hr] at h
      exact send_message_state os allocOk conn none c' h

/-- `tcp_connect_to_server` only yields the three protocol states. -/
lemma tcp_connect_to_server_mem (p : Int) (oc : ConnectOutcome) :
    tcp_connect_to_server p oc = STATE_IDLE ∨
    tcp_connect_to_server p oc = STATE_PENDING ∨
    tcp_connect_to_server p oc = STATE_READY := by
  unfold tcp_connect_to_server
  split_ifs with h
  · exact Or.inl rfl
  · cases oc
    · exact Or.inr (Or.inr rfl)
    · exact Or.inr (Or.inl rfl)
    · exact Or.inl rfl

/-- Claim C7: a non-blocking connect maps immediate success to READY,
in-progress to PENDING and any other failure to IDLE, in which case
`add_connection` creates nothing; a created connection starts PENDING or
READY; while PENDING, a zero pending socket error transitions to READY
and records the local send port, a non-zero error or a failed query
removes the connection; and the write-ready step never decreases a
surviving connection's state (IDLE=0, PENDING=1, READY=2). -/
theorem C7_state_machine (p : Int) (hp : 0 < p) :
    (tcp_connect_to_server p .success = STATE_READY ∧
     tcp_connect_to_server p .inProgress = STATE_PENDING ∧
     tcp_connect_to_server p .failOther = STATE_IDLE) ∧
    (∀ (env : AddEnv) (reg : List tConnectStc) (dp : Int),
      tcp_connect_to_server dp env.connectOutcome = STATE_IDLE →
      add_connection env reg dp = (none, reg)) ∧
    (∀ (env : AddEnv) (reg : List tConnectStc) (dp : Int) (c : tConnectStc),
      (add_connection env reg dp).1 = some c →
      c.state = STATE_PENDING ∨ c.state = STATE_READY) ∧
    (∀ (conn : tConnectStc) (lp : Int),
      resolvePending (.ok 0) lp conn
        = some { conn with sendport := lp, state := STATE_READY }) ∧
    (∀ (conn : tConnectStc) (lp e : Int), e ≠ 0 →
      resolvePending (.ok e) lp conn = none) ∧
    (∀ (conn : tConnectStc) (lp : Int), resolvePending .fail lp conn = none) ∧
    (∀ (conn : tConnectStc) (r : GetsockoptRes) (lp : Int)
      (oss : List SendmsgOutcome) (c' : tConnectStc),
      writeReadyStep r lp oss conn = some c' → conn.state ≤ c'.state) := by
  have hpn : ¬ p ≤ 0 := by omega
  refine ⟨⟨?_, ?_, ?_⟩, ?_, ?_, ?_, ?_, ?_, ?_⟩
  · simp [tcp_connect_to_server, hpn]
  · simp [tcp_connect_to_server, hpn]
  · simp [tcp_connect_to_server, hpn]
  · intro env reg dp hidle
    by_cases h1 : (find_connection reg dp).isSome = true
    · simp [add_connection, h1]
    · by_cases h2 : env.mallocOk = false
      · simp [add_connection, h1, h2]
      · by_cases h3 : env.sockfd < 0
        · simp [add_connection, h1, h2, h3]
        · simp [add_connection, h1, h2, h3, hidle]
  · intro env reg dp c hc
    by_cases h1 : (find_connection reg dp).isSome = true
    · rw [show add_connection env reg dp = (none, reg) by
        simp [add_connection, h1]] at hc
      exact absurd hc (by simp)
    by_cases h2 : env.mallocOk = false
    · rw [show add_connection env reg dp = (none, reg) by
        simp [add_connection, h1, h2]] at hc
      exact absurd hc (by simp)
    by_cases h3 : env.sockfd < 0
    · rw [show add_connection env reg dp = (none, reg) by
        simp [add_connection, h1, h2, h3]] at hc
      exact absurd hc (by simp)
    by_cases h4 : tcp_connect_to_server dp env.connectOutcome = STATE_IDLE
    · rw [show add_connection env reg dp = (none, reg) by
        simp [add_connection, h1, h2, h3, h4]] at hc
      exact absurd hc (by simp)
    have hc1 : (add_connection env reg dp).1 =
        some { sockfd := env.sockfd, destport := dp, sendport := 0,
               state := tcp_connect_to_server dp env.connectOutcome,
               msgix := 0, sntix := 0, rspix := 0, pndix := 0, queue := [] } := by
      simp [add_connection, h1, h2, h3, h4]
    rw [hc1] at hc
    have hcc := Option.some_inj.mp hc
    rw [← hcc]
    rcases tcp_connect_to_server_mem dp env.connectOutcome with h | h | h
    · exact absurd h h4
    · exact Or.inl h
    · exact Or.inr h
  · intro conn lp
    simp [resolvePending]
  · intro conn lp e he
    simp [resolvePending, he]
  · intro conn lp
    simp [resolvePending]
  · intro conn r lp oss c' h
    unfold writeReadyStep at h
    by_cases hs : conn.state = STATE_PENDING
    · rw [if_pos hs] at h
      cases r with
      | fail => simp [resolvePending] at h
      | ok e =>
        by_cases he : e ≠ 0
        · simp [resolvePending, he] at h
        · simp only [resolvePending, he, if_false] at h
          have h1 := drainLoop_state oss true _ c' h
          rw [h1, hs]
          simp [STATE_PENDING, STATE_READY]
    · rw [if_neg hs] at h
      rw [drainLoop_state oss true conn c' h]

/-- Witness for C7 at port 9001: immediate connect success is READY, and
resolving a PENDING socket with pending error 0 yields READY with the
local send port recorded. -/
theorem C7_witness :
    tcp_connect_to_server 9001 .success = STATE_READY ∧
    resolvePending (.ok 0) 50123 ⟨3, 9001, 0, STATE_PENDING, 0, 0, 0, 0, []⟩
      = some ⟨3, 9001, 50123, STATE_READY, 0, 0, 0, 0, []⟩ :=
  ⟨(C7_state_machine 9001 (by decide)).1.1,
   (C7_state_machine 9001 (by decide)).2.2.2.1
     ⟨3, 9001, 0, STATE_PENDING, 0, 0, 0, 0, []⟩ 50123⟩

/-! ### endpoint.c: main-loop error handling -/

/-- What the event loop does next. -/
inductive LoopAct where
  | exitProcess
  | continueLoop
  | proceed
deriving DecidableEq, Repr

/-- Outcome of the readiness wait. -/
inductive SelectRes where
  | errEintr
  | errOther
  | timedOut
  | ready
deriving DecidableEq, Repr

/-- `select` handling in `main` (endpoint.c:1167-1181): `EINTR` restarts
the wait, any other error exits the process, a timeout skips the body. -/
def selectStep : SelectRes → LoopAct
  | .errEintr => .continueLoop
  | .errOther => .exitProcess
  | .timedOut => .continueLoop
  | .ready => .proceed

/-- Outcome of `tcp_accept_connection`. -/
inductive AcceptRes where
  | fail
  | ok (clientsock clientPort : Int)
deriving DecidableEq, Repr

/-- Outcome of `fork()`. -/
inductive ForkRes where
  | fail
  | child
  | parent (pid : Int)
deriving DecidableEq, Repr

/-- Accept handling in `main` (endpoint.c:1288-1310): a failed accept
exits the process (`exit(1)` at endpoint.c:1291), as does a failed fork
(endpoint.c:1295); otherwise the loop proceeds. -/
def acceptStep : AcceptRes → ForkRes → LoopAct
  | .fail, _ => .exitProcess
  | .ok _ _, .fail => .exitProcess
  | .ok _ _, _ => .proceed

/-- Read-ready handling for one READY connection (endpoint.c:1363-1402):
`RECV_TERMINATED` and `RECV_FAILURE` remove exactly that connection,
`RECV_COMPLETE` bumps its receive counter, `RECV_BLOCKED` changes
nothing; in every case the event loop proceeds. -/
def readReadyStep (res : tRecvMsgTyp) (reg : List tConnectStc) (destport : Int) :
    List tConnectStc × LoopAct :=
  match res with
  | .RECV_TERMINATED => ((rem_connection reg destport).1, .proceed)
  | .RECV_FAILURE => ((rem_connection reg destport).1, .proceed)
  | .RECV_COMPLETE =>
    (reg.map (fun c => if c.destport = destport
        then { c with rspix := c.rspix + 1 } else c), .proceed)
  | .RECV_BLOCKED => (reg, .proceed)

/-- Claim C8, counterexample: the claim says a failed accept or a failed
worker spawn does not terminate the process, but `main` calls `exit(1)`
on both (endpoint.c:1291 and endpoint.c:1295). -/
theorem C8_accept_fork_exit :
    acceptStep .fail (.parent 5) = .exitProcess ∧
    acceptStep (.ok 7 9000) .fail = .exitProcess := by
  constructor <;> rfl

/-- Claim C8 as amended: per-connection receive errors remove exactly
the failing connection, leaving every other entry and the loop alive;
`EINTR` on the readiness wait retries while other wait failures are
fatal; and a failed accept or a failed fork also terminates the whole
process. -/
theorem C8_error_isolation (pre post : List tConnectStc) (c : tConnectStc)
    (res : tRecvMsgTyp) (f : ForkRes) (cs cp : Int)
    (hpre : ∀ x ∈ pre, x.destport ≠ c.destport) :
    selectStep .errEintr = .continueLoop ∧
    selectStep .errOther = .exitProcess ∧
    acceptStep .fail f = .exitProcess ∧
    acceptStep (.ok cs cp) .fail = .exitProcess ∧
    (readReadyStep .RECV_FAILURE (pre ++ c :: post) c.destport).1 = pre ++ post ∧
    (readReadyStep .RECV_TERMINATED (pre ++ c :: post) c.destport).1 = pre ++ post ∧
    (readReadyStep res (pre ++ c :: post) c.destport).2 = .proceed := by
  have hrem := rem_connection_found pre c post c.destport rfl hpre
  refine ⟨rfl, rfl, ?_, rfl, ?_, ?_, ?_⟩
  · cases f <;> rfl
  · simp [readReadyStep, hrem]
  · simp [readReadyStep, hrem]
  · cases res <;> rfl

/-- Witness for C8: with two READY connections, a receive failure on
port 9002 removes only that entry and the loop proceeds. -/
theorem C8_witness :
    (readReadyStep .RECV_FAILURE
        [⟨3, 9001, 0, 2, 0, 0, 0, 0, []⟩, ⟨4, 9002, 0, 2, 0, 0, 0, 0, []⟩] 9002).1
      = [⟨3, 9001, 0, 2, 0, 0, 0, 0, []⟩] ∧
    (readReadyStep .RECV_FAILURE
        [⟨3, 9001, 0, 2, 0, 0, 0, 0, []⟩, ⟨4, 9002, 0, 2, 0, 0, 0, 0, []⟩] 9002).2
      = .proceed := by
  have h := C8_error_isolation [⟨3, 9001, 0, 2, 0, 0, 0, 0, []⟩] []
    ⟨4, 9002, 0, 2, 0, 0, 0, 0, []⟩ .RECV_FAILURE (.parent 1) 0 0 (by decide)
  exact ⟨by simpa using h.2.2.2.2.1, by simpa using h.2.2.2.2.2.2⟩

/-! ### endpoint.c: the worker send pass

`child_handle_client` (endpoint.c:1013-1055) drains its private queue on
every loop iteration.  The loop walks the queue along the node `next`
pointers saved before each branch; those pointers are never modified
during the pass, so the iteration order is the original list.  Removal
of a completed (or NULL-buffer) node assigns `firstmsg.next =
pending->next`, i.e. re-heads the queue at the suffix after that node —
dropping any earlier blocked node that was left in place.  On
`SEND_BLOCKED` the loop logs and moves on to the next node; on
`SEND_FAILURE` it stops the worker. -/

/-- One pass of the worker's send loop.  `oss` gives the outcome of each
`tcp_send_message` call in order, `pending` is the iteration cursor,
`queueHead` the chain reachable from `firstmsg.next`, `sendCount` the
worker's `send_count`, and `wire` the payloads transmitted so far.
Returns the wire, the queue left reachable, the send count and the
`running` flag. -/
def childSendPass (oss : List tSendMsgTyp) (pending queueHead : List tBufferStc)
    (sendCount : Nat) (wire : List (List Nat)) :
    List (List Nat) × List tBufferStc × Nat × Bool :=
  match pending with
  | [] => (wire, queueHead, sendCount, true)
  | p :: rest =>
    match p.buffer with
    | none => childSendPass oss rest rest sendCount wire
    | some b =>
      match oss with
      | [] => (wire, queueHead, sendCount, true)
      | os :: oss1 =>
        match os with
        | .SEND_BLOCKED => childSendPass oss1 rest queueHead sendCount wire
        | .SEND_FAILURE => (wire, queueHead, sendCount, false)
        | .SEND_COMPLETE =>
          childSendPass oss1 rest rest (sendCount + 1) (wire ++ [b])

/-- Claim C5 failing input: the worker's queue holds S1 then S2; the
send of S1 is `SEND_BLOCKED` and the send of S2 in the same pass is
`SEND_COMPLETE`.  The pass transmits S2 while S1 has never been sent —
violating per-connection FIFO — and the completed node's removal
(`firstmsg.next = pending->next`) also unlinks the still-unsent S1, so
the queue ends empty and S1 is lost. -/
theorem C5_worker_blocked_reorders :
    childSendPass [.SEND_BLOCKED, .SEND_COMPLETE]
        [⟨1, some [49]⟩, ⟨2, some [50]⟩] [⟨1, some [49]⟩, ⟨2, some [50]⟩] 0 []
      = ([[50]], [], 1, true) := by
  decide

end Endpoint
